import Mathlib

/-!
Shallow embedding of the `prompt-to-json-agent` repository:

* `src/config/secret_manager.py` — a multi-cloud secret-resolution facade
  (provider auto-detection from environment variables, per-provider fetch
  routines with fallback to an environment-variable lookup, an in-memory
  cache populated on successful resolution);
* `src/src/schemas/object_schema.py` — pydantic models for a 3D scene
  specification (`MaterialProperties`, `Position`, `Dimensions`,
  `DesignObject`, `SpecSchema`) and the pure helper
  `DesignObject.generate_id`.

Modelling conventions: the process environment is a map
`String → Option String`; Python truthiness of `os.getenv(v)` (`None` and
`""` are falsy) is `pyTruthy`; exceptions raised by the cloud SDK calls are
the inductive `PyExc` (`importError` for a missing SDK, `clientError` for
`botocore.exceptions.ClientError`, `otherError` for any other exception);
the external SDK get-secret call is an oracle `Backend`; log lines are the
inductive `LogEvent`; pydantic float fields are `Rat` (the validation at
issue compares against the exact bounds 0.0 and 1.0); `Dict[str, Any]`
payloads are association lists over a small `PyVal` universe; pydantic
construction that can fail validation returns `Except (List String) _`
carrying the names of the offending fields.
-/

namespace PromptToJson

/-- The process environment: variable name to value, `none` when unset. -/
def EnvMap : Type := String → Option String

/-- Python truthiness of an `os.getenv` result: `None` and the empty
string are falsy, every other string is truthy. -/
def pyTruthy : Option String → Bool
  | none => false
  | some s => s != ""

/-- `SecretProvider` enum from `secret_manager.py`. -/
inductive SecretProvider
  | aws
  | azure
  | gcp
  | env
  deriving DecidableEq, Repr

/-- `SecretManager._detect_provider`: pick the backend from environment
signals, AWS region variables first, then the Azure vault URL, then the
GCP project id, else the environment fallback. -/
def detect_provider (e : EnvMap) : SecretProvider :=
  if pyTruthy (e "AWS_REGION") || pyTruthy (e "AWS_DEFAULT_REGION") then
    SecretProvider.aws
  else if pyTruthy (e "AZURE_KEY_VAULT_URL") then
    SecretProvider.azure
  else if pyTruthy (e "GCP_PROJECT_ID") then
    SecretProvider.gcp
  else
    SecretProvider.env

/-- The log lines emitted by the secret manager, one constructor per
`logger.*` call site relevant to resolution. -/
inductive LogEvent
  | infoRetrieved (p : SecretProvider) (name : String)
  | errorSdkMissing (p : SecretProvider)
  | errorBackendFailed (p : SecretProvider)
  | warnEnvFallback (name : String)
  | errorNotFound (name : String)
  deriving DecidableEq, Repr

/-- `SecretManager._get_env_secret`: read the environment variable named
exactly `name`; a truthy value is returned with a fallback warning, while
an unset or empty variable yields `""` with a not-found error log
(`return value or ""`). -/
def get_env_secret (e : EnvMap) (name : String) : String × List LogEvent :=
  let value := e name
  if pyTruthy value then
    (value.getD "", [LogEvent.warnEnvFallback name])
  else
    ("", [LogEvent.errorNotFound name])

/-- Exceptions the backend SDK call can raise: a missing client library
(`ImportError`), `botocore.exceptions.ClientError`, or any other
exception. -/
inductive PyExc
  | importError
  | clientError
  | otherError
  deriving DecidableEq, Repr

/-- Oracle for the external cloud SDK: what the get-secret call for a
given name does (returns a value or raises). -/
def Backend : Type := String → Except PyExc String

/-- `SecretManager._get_aws_secret`: issue the SDK call; `except
ImportError` and `except ClientError` fall back to the environment lookup,
any other exception propagates (there is no catch-all clause). -/
def get_aws_secret (backend : Backend) (e : EnvMap) (name : String) :
    Except PyExc (String × List LogEvent) :=
  match backend name with
  | Except.ok v => Except.ok (v, [LogEvent.infoRetrieved SecretProvider.aws name])
  | Except.error PyExc.importError =>
      let r := get_env_secret e name
      Except.ok (r.1, LogEvent.errorSdkMissing SecretProvider.aws :: r.2)
  | Except.error PyExc.clientError =>
      let r := get_env_secret e name
      Except.ok (r.1, LogEvent.errorBackendFailed SecretProvider.aws :: r.2)
  | Except.error PyExc.otherError => Except.error PyExc.otherError

/-- `SecretManager._get_azure_secret`: `except ImportError` then a
catch-all `except Exception`, so every exception falls back to the
environment lookup. -/
def get_azure_secret (backend : Backend) (e : EnvMap) (name : String) :
    Except PyExc (String × List LogEvent) :=
  match backend name with
  | Except.ok v => Except.ok (v, [LogEvent.infoRetrieved SecretProvider.azure name])
  | Except.error PyExc.importError =>
      let r := get_env_secret e name
      Except.ok (r.1, LogEvent.errorSdkMissing SecretProvider.azure :: r.2)
  | Except.error _ =>
      let r := get_env_secret e name
      Except.ok (r.1, LogEvent.errorBackendFailed SecretProvider.azure :: r.2)

/-- `SecretManager._get_gcp_secret`: `except ImportError` then a catch-all
`except Exception`, so every exception falls back to the environment
lookup. -/
def get_gcp_secret (backend : Backend) (e : EnvMap) (name : String) :
    Except PyExc (String × List LogEvent) :=
  match backend name with
  | Except.ok v => Except.ok (v, [LogEvent.infoRetrieved SecretProvider.gcp name])
  | Except.error PyExc.importError =>
      let r := get_env_secret e name
      Except.ok (r.1, LogEvent.errorSdkMissing SecretProvider.gcp :: r.2)
  | Except.error _ =>
      let r := get_env_secret e name
      Except.ok (r.1, LogEvent.errorBackendFailed SecretProvider.gcp :: r.2)

/-- The mutable state of a `SecretManager` instance: the provider chosen
at construction and the in-memory cache. (The lazily created `_client`
handle is folded into the `Backend` oracle.) -/
structure ManagerState where
  provider : SecretProvider
  cache : String → Option String

/-- Result of one `SecretManager.get_secret` call: the returned value or
the propagated exception, the state after the call, the log lines emitted,
and how many provider fetch routines were entered (instrumentation for the
cache-hit property; `0` or `1` per call). -/
structure CallResult where
  outcome : Except PyExc String
  state : ManagerState
  logs : List LogEvent
  backendCalls : Nat

/-- `SecretManager.get_secret`: answer from the cache when present;
otherwise dispatch on the provider to the matching fetch routine (the env
provider goes straight to the environment lookup); cache the value only
when it is truthy (`if value:`), then return it. An exception escaping the
dispatched routine propagates and leaves the state unchanged. -/
def get_secret (backend : Backend) (e : EnvMap) (s : ManagerState)
    (name : String) : CallResult :=
  match s.cache name with
  | some v => ⟨Except.ok v, s, [], 0⟩
  | none =>
    let fetched : Except PyExc (String × List LogEvent) × Nat :=
      match s.provider with
      | SecretProvider.aws => (get_aws_secret backend e name, 1)
      | SecretProvider.azure => (get_azure_secret backend e name, 1)
      | SecretProvider.gcp => (get_gcp_secret backend e name, 1)
      | SecretProvider.env => (Except.ok (get_env_secret e name), 0)
    match fetched with
    | (Except.error exc, n) => ⟨Except.error exc, s, [], n⟩
    | (Except.ok (v, logs), n) =>
      if v != "" then
        ⟨Except.ok v,
         ⟨s.provider, fun k => if k = name then some v else s.cache k⟩, logs, n⟩
      else
        ⟨Except.ok v, s, logs, n⟩

/-! ### Scene specification schema (`object_schema.py`) -/

/-- Values stored in the `Dict[str, Any]` payload fields. -/
inductive PyVal
  | str (s : String)
  | num (q : Rat)
  | boolean (b : Bool)
  deriving DecidableEq

/-- `MaterialProperties` record: `type` is required, the rest optional;
`reflectivity`, `roughness`, `metallic` carry `ge=0.0, le=1.0` bounds. -/
structure MaterialProperties where
  type : String
  color : Option String := none
  texture : Option String := none
  finish : Option String := none
  reflectivity : Option Rat := none
  roughness : Option Rat := none
  metallic : Option Rat := none
  properties : List (String × PyVal) := []
  editable : Bool := true
  deriving DecidableEq

/-- One pydantic `ge=0.0, le=1.0` field constraint: an absent value
passes, a present value outside `[0, 1]` reports the field's name. -/
def checkClosedUnit (fieldName : String) : Option Rat → List String
  | none => []
  | some x => if 0 ≤ x ∧ x ≤ 1 then [] else [fieldName]

/-- `MaterialProperties(...)` construction: pydantic validates the three
bounded numeric fields and raises a `ValidationError` naming the offending
fields when any is out of range. -/
def mkMaterialProperties (type : String) (color texture finish : Option String)
    (reflectivity roughness metallic : Option Rat)
    (properties : List (String × PyVal)) (editable : Bool) :
    Except (List String) MaterialProperties :=
  match checkClosedUnit "reflectivity" reflectivity ++
      checkClosedUnit "roughness" roughness ++
      checkClosedUnit "metallic" metallic with
  | [] => Except.ok ⟨type, color, texture, finish, reflectivity, roughness,
      metallic, properties, editable⟩
  | errs => Except.error errs

/-- `Position` record, defaulting to the origin. -/
structure Position where
  x : Rat := 0
  y : Rat := 0
  z : Rat := 0
  deriving DecidableEq

/-- `Dimensions` record: length, width, height required, units defaults to
"meters". -/
structure Dimensions where
  length : Rat
  width : Rat
  height : Rat
  units : String := "meters"
  deriving DecidableEq

/-- `DesignObject` record. -/
structure DesignObject where
  object_id : String
  object_type : String
  material : MaterialProperties
  position : Position := {}
  dimensions : Dimensions
  rotation : Option (List (String × Rat)) := none
  metadata : List (String × PyVal) := []
  editable : Bool := true
  deriving DecidableEq

/-- Python `str.lower()` as used by `generate_id` (ASCII case mapping,
which covers every identifier the schema works with). -/
def strLower (s : String) : String := ⟨s.data.map Char.toLower⟩

/-- `DesignObject.generate_id`: `f"{object_type.lower()}_{index}"` —
the lowercased type, an underscore, and the decimal rendering of the
index. -/
def generate_id (object_type : String) (index : Int) : String :=
  strLower object_type ++ "_" ++ Int.repr index

/-- `SpecSchema` record (`created_at` / `updated_at` are opaque timestamp
ticks supplied at construction, standing in for `datetime.utcnow`). -/
structure SpecSchema where
  spec_id : String
  objects : List DesignObject
  scene_metadata : List (String × PyVal) := []
  created_at : Nat
  updated_at : Nat
  deriving DecidableEq

/-- `SpecSchema(...)` construction: beyond the field types there is no
custom validator — in particular no check that `object_id` values are
unique across `objects` — so construction from well-formed components
always succeeds. -/
def mkSpecSchema (spec_id : String) (objects : List DesignObject)
    (scene_metadata : List (String × PyVal)) (now : Nat) :
    Except (List String) SpecSchema :=
  Except.ok ⟨spec_id, objects, scene_metadata, now, now⟩

/-! ### Behavioural lemmas for the secret manager -/

/-- Case analysis on one `get_secret` call. -/
lemma get_secret_shape (backend : Backend) (e : EnvMap) (s : ManagerState)
    (name : String) :
    (∃ v, s.cache name = some v ∧
        get_secret backend e s name = ⟨Except.ok v, s, [], 0⟩)
  ∨ (s.cache name = none ∧ ∃ exc n, n ≤ 1 ∧
        get_secret backend e s name = ⟨Except.error exc, s, [], n⟩)
  ∨ (s.cache name = none ∧ ∃ v logs n, v ≠ "" ∧ n ≤ 1 ∧
        get_secret backend e s name =
          ⟨Except.ok v, ⟨s.provider, fun k => if k = name then some v else s.cache k⟩,
            logs, n⟩)
  ∨ (s.cache name = none ∧ ∃ logs n, n ≤ 1 ∧
        get_secret backend e s name = ⟨Except.ok "", s, logs, n⟩) := by
  obtain ⟨p, cache⟩ := s
  rcases hcm : cache name with _ | v0
  case some =>
    exact Or.inl ⟨v0, hcm, by simp [get_secret, hcm]⟩
  case none =>
    cases p
    case env =>
      by_cases hv : (get_env_secret e name).1 = ""
      · refine Or.inr (Or.inr (Or.inr ⟨hcm, (get_env_secret e name).2, 0, by omega, ?_⟩))
        simp [get_secret, hcm, hv]
      · refine Or.inr (Or.inr (Or.inl ⟨hcm, (get_env_secret e name).1,
          (get_env_secret e name).2, 0, hv, by omega, ?_⟩))
        simp [get_secret, hcm, hv]
    case aws =>
      rcases hb : backend name with exc | v
      · cases exc
        case otherError =>
          refine Or.inr (Or.inl ⟨hcm, PyExc.otherError, 1, by omega, ?_⟩)
          simp [get_secret, hcm, get_aws_secret, hb]
        case importError =>
          by_cases hv : (get_env_secret e name).1 = ""
          · refine Or.inr (Or.inr (Or.inr ⟨hcm,
              LogEvent.errorSdkMissing SecretProvider.aws :: (get_env_secret e name).2,
              1, by omega, ?_⟩))
            simp [get_secret, hcm, get_aws_secret, hb, hv]
          · refine Or.inr (Or.inr (Or.inl ⟨hcm, (get_env_secret e name).1,
              LogEvent.errorSdkMissing SecretProvider.aws :: (get_env_secret e name).2,
              1, hv, by omega, ?_⟩))
            simp [get_secret, hcm, get_aws_secret, hb, hv]
        case clientError =>
          by_cases hv : (get_env_secret e name).1 = ""
          · refine Or.inr (Or.inr (Or.inr ⟨hcm,
              LogEvent.errorBackendFailed SecretProvider.aws :: (get_env_secret e name).2,
              1, by omega, ?_⟩))
            simp [get_secret, hcm, get_aws_secret, hb, hv]
          · refine Or.inr (Or.inr (Or.inl ⟨hcm, (get_env_secret e name).1,
              LogEvent.errorBackendFailed SecretProvider.aws :: (get_env_secret e name).2,
              1, hv, by omega, ?_⟩))
            simp [get_secret, hcm, get_aws_secret, hb, hv]
      · by_cases hv : v = ""
        · subst hv
          refine Or.inr (Or.inr (Or.inr ⟨hcm,
            [LogEvent.infoRetrieved SecretProvider.aws name], 1, by omega, ?_⟩))
          simp [get_secret, hcm, get_aws_secret, hb]
        · refine Or.inr (Or.inr (Or.inl ⟨hcm, v,
            [LogEvent.infoRetrieved SecretProvider.aws name], 1, hv, by omega, ?_⟩))
          simp [get_secret, hcm, get_aws_secret, hb, hv]
    case azure =>
      rcases hb : backend name with exc | v
      · have hlog : ∃ tag, get_azure_secret backend e name =
            Except.ok ((get_env_secret e name).1, tag :: (get_env_secret e name).2) := by
          cases exc
          case importError =>
            exact ⟨LogEvent.errorSdkMissing SecretProvider.azure, by simp [get_azure_secret, hb]⟩
          case clientError =>
            exact ⟨LogEvent.errorBackendFailed SecretProvider.azure, by simp [get_azure_secret, hb]⟩
          case otherError =>
            exact ⟨LogEvent.errorBackendFailed SecretProvider.azure, by simp [get_azure_secret, hb]⟩
        obtain ⟨tag, hlog⟩ := hlog
        by_cases hv : (get_env_secret e name).1 = ""
        · refine Or.inr (Or.inr (Or.inr ⟨hcm, tag :: (get_env_secret e name).2,
            1, by omega, ?_⟩))
          simp [get_secret, hcm, hlog, hv]
        · refine Or.inr (Or.inr (Or.inl ⟨hcm, (get_env_secret e name).1,
            tag :: (get_env_secret e name).2, 1, hv, by omega, ?_⟩))
          simp [get_secret, hcm, hlog, hv]
      · by_cases hv : v = ""
        · subst hv
          refine Or.inr (Or.inr (Or.inr ⟨hcm,
            [LogEvent.infoRetrieved SecretProvider.azure name], 1, by omega, ?_⟩))
          simp [get_secret, hcm, get_azure_secret, hb]
        · refine Or.inr (Or.inr (Or.inl ⟨hcm, v,
            [LogEvent.infoRetrieved SecretProvider.azure name], 1, hv, by omega, ?_⟩))
          simp [get_secret, hcm, get_azure_secret, hb, hv]
    case gcp =>
      rcases hb : backend name with exc | v
      · have hlog : ∃ tag, get_gcp_secret backend e name =
            Except.ok ((get_env_secret e name).1, tag :: (get_env_secret e name).2) := by
          cases exc
          case importError =>
            exact ⟨LogEvent.errorSdkMissing SecretProvider.gcp, by simp [get_gcp_secret, hb]⟩
          case clientError =>
            exact ⟨LogEvent.errorBackendFailed SecretProvider.gcp, by simp [get_gcp_secret, hb]⟩
          case otherError =>
            exact ⟨LogEvent.errorBackendFailed SecretProvider.gcp, by simp [get_gcp_secret, hb]⟩
        obtain ⟨tag, hlog⟩ := hlog
        by_cases hv : (get_env_secret e name).1 = ""
        · refine Or.inr (Or.inr (Or.inr ⟨hcm, tag :: (get_env_secret e name).2,
            1, by omega, ?_⟩))
          simp [get_secret, hcm, hlog, hv]
        · refine Or.inr (Or.inr (Or.inl ⟨hcm, (get_env_secret e name).1,
            tag :: (get_env_secret e name).2, 1, hv, by omega, ?_⟩))
          simp [get_secret, hcm, hlog, hv]
      · by_cases hv : v = ""
        · subst hv
          refine Or.inr (Or.inr (Or.inr ⟨hcm,
            [LogEvent.infoRetrieved SecretProvider.gcp name], 1, by omega, ?_⟩))
          simp [get_secret, hcm, get_gcp_secret, hb]
        · refine Or.inr (Or.inr (Or.inl ⟨hcm, v,
            [LogEvent.infoRetrieved SecretProvider.gcp name], 1, hv, by omega, ?_⟩))
          simp [get_secret, hcm, get_gcp_secret, hb, hv]


/-- C2: `_detect_provider` selects by fixed precedence: an AWS region
variable set (to a non-empty string, the presence test `os.getenv` uses)
selects AWS; else the Azure vault URL selects Azure; else the GCP project
id selects GCP; else the environment fallback — for every environment. -/
theorem detect_provider_precedence (e : EnvMap) :
    ((pyTruthy (e "AWS_REGION") = true ∨ pyTruthy (e "AWS_DEFAULT_REGION") = true) →
        detect_provider e = SecretProvider.aws)
  ∧ (pyTruthy (e "AWS_REGION") = false → pyTruthy (e "AWS_DEFAULT_REGION") = false →
      pyTruthy (e "AZURE_KEY_VAULT_URL") = true →
        detect_provider e = SecretProvider.azure)
  ∧ (pyTruthy (e "AWS_REGION") = false → pyTruthy (e "AWS_DEFAULT_REGION") = false →
      pyTruthy (e "AZURE_KEY_VAULT_URL") = false →
      pyTruthy (e "GCP_PROJECT_ID") = true →
        detect_provider e = SecretProvider.gcp)
  ∧ (pyTruthy (e "AWS_REGION") = false → pyTruthy (e "AWS_DEFAULT_REGION") = false →
      pyTruthy (e "AZURE_KEY_VAULT_URL") = false →
      pyTruthy (e "GCP_PROJECT_ID") = false →
        detect_provider e = SecretProvider.env) := by
  refine ⟨?_, ?_, ?_, ?_⟩
  · rintro (h | h) <;> simp [detect_provider, h]
  · intro h1 h2 h3; simp [detect_provider, h1, h2, h3]
  · intro h1 h2 h3 h4; simp [detect_provider, h1, h2, h3, h4]
  · intro h1 h2 h3 h4; simp [detect_provider, h1, h2, h3, h4]

/-- Witness for `detect_provider_precedence`: all four cases at concrete
environments, each with the lower-precedence variables also set. -/
theorem detect_provider_precedence_witness :
    detect_provider (fun v => if v = "AWS_REGION" then some "us-east-1"
      else if v = "AZURE_KEY_VAULT_URL" then some "https://kv" else none)
      = SecretProvider.aws
  ∧ detect_provider (fun v => if v = "AZURE_KEY_VAULT_URL" then some "https://kv"
      else if v = "GCP_PROJECT_ID" then some "proj" else none)
      = SecretProvider.azure
  ∧ detect_provider (fun v => if v = "GCP_PROJECT_ID" then some "proj" else none)
      = SecretProvider.gcp
  ∧ detect_provider (fun _ => none) = SecretProvider.env :=
  ⟨(detect_provider_precedence _).1 (Or.inl rfl),
   (detect_provider_precedence _).2.1 rfl rfl rfl,
   (detect_provider_precedence _).2.2.1 rfl rfl rfl rfl,
   (detect_provider_precedence _).2.2.2 rfl rfl rfl rfl⟩

/-- C5: `_get_env_secret` reads the environment variable named exactly
`name`; when it is unset the routine returns the empty string after the
not-found error log, and when it is set it returns its value. It never
raises: `""` is the only not-found signal. -/
theorem get_env_secret_contract (e : EnvMap) (name : String) :
    (e name = none → get_env_secret e name = ("", [LogEvent.errorNotFound name]))
  ∧ (∀ v, e name = some v → (get_env_secret e name).1 = v) := by
  constructor
  · intro h; simp [get_env_secret, h, pyTruthy]
  · intro v h
    by_cases hv : v = "" <;> simp [get_env_secret, h, pyTruthy, hv]

/-- Witness for `get_env_secret_contract`: an absent variable yields the
empty string with the error log; a set variable yields its value. -/
theorem get_env_secret_contract_witness :
    get_env_secret (fun _ => none) "API_KEY" = ("", [LogEvent.errorNotFound "API_KEY"])
  ∧ (get_env_secret (fun _ => some "hunter2") "API_KEY").1 = "hunter2" :=
  ⟨(get_env_secret_contract (fun _ => none) "API_KEY").1 rfl,
   (get_env_secret_contract (fun _ => some "hunter2") "API_KEY").2 "hunter2" rfl⟩

/-- C1 counterexample: with the AWS provider, an uncached name, and a
backend call raising an exception that is neither `ImportError` nor
`ClientError` (e.g. a `BotoCoreError` such as `EndpointConnectionError`),
`get_secret` propagates the exception instead of re-entering resolution
through the environment fallback. -/
theorem aws_uncaught_exception_propagates :
    (get_secret (fun _ => Except.error PyExc.otherError) (fun _ => none)
        ⟨SecretProvider.aws, fun _ => none⟩ "DB_PASSWORD").outcome
      = Except.error PyExc.otherError := rfl

/-- C1 amended: when the dispatched fetch routine's exception is one the
routine catches — any exception for Azure and GCP, but only `ImportError`
or `ClientError` for AWS — `get_secret` re-enters resolution through the
environment fallback and returns that routine's result. -/
theorem get_secret_falls_back_on_caught_exception (backend : Backend)
    (e : EnvMap) (s : ManagerState) (name : String) (exc : PyExc)
    (hc : s.cache name = none)
    (hb : backend name = Except.error exc)
    (hcatch : s.provider = SecretProvider.azure ∨ s.provider = SecretProvider.gcp ∨
      (s.provider = SecretProvider.aws ∧
        (exc = PyExc.importError ∨ exc = PyExc.clientError))) :
    (get_secret backend e s name).outcome = Except.ok (get_env_secret e name).1 := by
  obtain ⟨p, cache⟩ := s
  have hc' : cache name = none := hc
  by_cases hv : (get_env_secret e name).1 = ""
  all_goals {
    rcases hcatch with hp | hp | ⟨hp, hexc⟩
    · cases hp
      cases exc <;> simp [get_secret, hc', get_azure_secret, hb, hv]
    · cases hp
      cases exc <;> simp [get_secret, hc', get_gcp_secret, hb, hv]
    · cases hp
      rcases hexc with rfl | rfl <;> simp [get_secret, hc', get_aws_secret, hb, hv]
  }

/-- Witness for `get_secret_falls_back_on_caught_exception`: Azure
provider, backend raising a generic exception, secret present in the
environment. -/
theorem get_secret_falls_back_on_caught_exception_witness :
    (get_secret (fun _ => Except.error PyExc.otherError)
        (fun v => if v = "TOKEN" then some "tok" else none)
        ⟨SecretProvider.azure, fun _ => none⟩ "TOKEN").outcome
      = Except.ok (get_env_secret
          (fun v => if v = "TOKEN" then some "tok" else none) "TOKEN").1 :=
  get_secret_falls_back_on_caught_exception _ _ _ _ PyExc.otherError rfl rfl (Or.inl rfl)


/-- C3 counterexample: with the AWS provider, a backend that fails with
`ClientError`, and no environment variable, the first call resolves to the
empty string, nothing is cached, and a second call with the same name
issues a second backend fetch — two in total, not at most one. -/
theorem second_call_repeats_backend_fetch :
    (get_secret (fun _ => Except.error PyExc.clientError) (fun _ => none)
        ⟨SecretProvider.aws, fun _ => none⟩ "API_KEY").backendCalls
      + (get_secret (fun _ => Except.error PyExc.clientError) (fun _ => none)
          (get_secret (fun _ => Except.error PyExc.clientError) (fun _ => none)
            ⟨SecretProvider.aws, fun _ => none⟩ "API_KEY").state "API_KEY").backendCalls
      = 2 := rfl

/-- C3 amended: when the first `get_secret` call resolves the name to a
non-empty value, the two calls together issue at most one backend fetch:
the first enters at most one provider fetch routine and the second is
answered from the cache, entering none and returning the same value. -/
theorem cache_hit_after_nonempty_resolution (backend : Backend) (e : EnvMap)
    (s : ManagerState) (name : String) (v : String)
    (h : (get_secret backend e s name).outcome = Except.ok v) (hv : v ≠ "") :
    (get_secret backend e s name).backendCalls ≤ 1
  ∧ (get_secret backend e (get_secret backend e s name).state name).backendCalls = 0
  ∧ (get_secret backend e (get_secret backend e s name).state name).outcome
      = Except.ok v := by
  rcases get_secret_shape backend e s name with
      ⟨v0, hcm, hgs⟩ | ⟨hcm, exc, n, hn, hgs⟩ | ⟨hcm, v0, logs, n, hv0, hn, hgs⟩ |
      ⟨hcm, logs, n, hn, hgs⟩
  · rw [hgs] at h ⊢
    obtain rfl : v0 = v := by simpa using h
    refine ⟨by simp, ?_, ?_⟩ <;> simp [get_secret, hcm]
  · rw [hgs] at h; simp at h
  · rw [hgs] at h ⊢
    obtain rfl : v0 = v := by simpa using h
    refine ⟨by simpa using hn, ?_, ?_⟩ <;>
      simp [get_secret]
  · rw [hgs] at h
    obtain rfl : v = "" := by simpa using h.symm
    exact absurd rfl hv

/-- Witness for `cache_hit_after_nonempty_resolution`: a successful AWS
fetch of a non-empty value, then a cache hit. -/
theorem cache_hit_after_nonempty_resolution_witness :
    (get_secret (fun _ => Except.ok "s3cret") (fun _ => none)
        ⟨SecretProvider.aws, fun _ => none⟩ "API_KEY").backendCalls ≤ 1
  ∧ (get_secret (fun _ => Except.ok "s3cret") (fun _ => none)
        (get_secret (fun _ => Except.ok "s3cret") (fun _ => none)
          ⟨SecretProvider.aws, fun _ => none⟩ "API_KEY").state "API_KEY").backendCalls = 0
  ∧ (get_secret (fun _ => Except.ok "s3cret") (fun _ => none)
        (get_secret (fun _ => Except.ok "s3cret") (fun _ => none)
          ⟨SecretProvider.aws, fun _ => none⟩ "API_KEY").state "API_KEY").outcome
      = Except.ok "s3cret" :=
  cache_hit_after_nonempty_resolution _ _ _ _ "s3cret" rfl (by decide)

/-- C4: a `get_secret` call inserts a cache entry only when resolution
produced a non-empty value; a resolution yielding `""` — and a propagated
exception — leaves the state unchanged, and no key other than the
requested name is ever touched. -/
theorem cache_populated_only_on_nonempty (backend : Backend) (e : EnvMap)
    (s : ManagerState) (name : String) :
    (∀ exc, (get_secret backend e s name).outcome = Except.error exc →
        (get_secret backend e s name).state = s)
  ∧ (∀ v, (get_secret backend e s name).outcome = Except.ok v →
        (v = "" → (get_secret backend e s name).state = s)
      ∧ (v ≠ "" → ∀ k, (get_secret backend e s name).state.cache k
            = if k = name then some v else s.cache k)) := by
  rcases get_secret_shape backend e s name with
      ⟨v0, hcm, hgs⟩ | ⟨hcm, exc, n, hn, hgs⟩ | ⟨hcm, v0, logs, n, hv0, hn, hgs⟩ |
      ⟨hcm, logs, n, hn, hgs⟩ <;> rw [hgs]
  · refine ⟨by simp, ?_⟩
    intro v h
    obtain rfl : v0 = v := by simpa using h
    refine ⟨fun _ => rfl, fun _ k => ?_⟩
    by_cases hk : k = name <;> simp [hk, hcm]
  · refine ⟨fun _ _ => rfl, ?_⟩
    intro v h; simp at h
  · refine ⟨by simp, ?_⟩
    intro v h
    obtain rfl : v0 = v := by simpa using h
    exact ⟨fun h' => absurd h' hv0, fun _ k => rfl⟩
  · refine ⟨by simp, ?_⟩
    intro v h
    obtain rfl : v = "" := by simpa using h.symm
    exact ⟨fun _ => rfl, fun h' => absurd rfl h'⟩

/-- Witness for `cache_populated_only_on_nonempty`: a fresh non-empty
resolution via the environment fallback inserts the entry for the
requested name and no other. -/
theorem cache_populated_only_on_nonempty_witness :
    (get_secret (fun _ => Except.error PyExc.otherError)
        (fun v => if v = "K" then some "pass" else none)
        ⟨SecretProvider.env, fun _ => none⟩ "K").state.cache "K"
      = if "K" = "K" then some "pass" else none :=
  ((cache_populated_only_on_nonempty (fun _ => Except.error PyExc.otherError)
      (fun v => if v = "K" then some "pass" else none)
      ⟨SecretProvider.env, fun _ => none⟩ "K").2 "pass" rfl).2 (by decide) "K"

/-- C10: in environment-fallback mode, a variable set to the empty string
is treated exactly like an absent secret: `get_secret` returns `""`
through the not-found branch (error log, not the fallback-used warning)
and stores nothing in the cache. -/
theorem env_mode_empty_var_is_not_found (backend : Backend) (e : EnvMap)
    (s : ManagerState) (name : String)
    (hp : s.provider = SecretProvider.env)
    (hc : s.cache name = none)
    (hv : e name = some "") :
    get_secret backend e s name
      = ⟨Except.ok "", s, [LogEvent.errorNotFound name], 0⟩ := by
  obtain ⟨p, cache⟩ := s
  have hc' : cache name = none := hc
  cases hp
  simp [get_secret, hc', get_env_secret, hv, pyTruthy]

/-- Witness for `env_mode_empty_var_is_not_found` at a concrete empty
variable. -/
theorem env_mode_empty_var_is_not_found_witness :
    get_secret (fun _ => Except.error PyExc.otherError)
        (fun v => if v = "X" then some "" else none)
        ⟨SecretProvider.env, fun _ => none⟩ "X"
      = ⟨Except.ok "", ⟨SecretProvider.env, fun _ => none⟩,
          [LogEvent.errorNotFound "X"], 0⟩ :=
  env_mode_empty_var_is_not_found _ _ _ _ rfl rfl rfl


/-- A pydantic `ge=0.0, le=1.0` constraint read as a predicate on an
optional field: absent passes, present must lie in the closed unit
interval. -/
def inClosedUnit : Option Rat → Prop
  | none => True
  | some x => 0 ≤ x ∧ x ≤ 1

lemma checkClosedUnit_eq_nil_iff (fieldName : String) (o : Option Rat) :
    checkClosedUnit fieldName o = [] ↔ inClosedUnit o := by
  cases o with
  | none => simp [checkClosedUnit, inClosedUnit]
  | some x =>
    by_cases h : 0 ≤ x ∧ x ≤ 1 <;> simp [checkClosedUnit, inClosedUnit, h]

lemma mkMaterialProperties_eq (type : String) (color texture finish : Option String)
    (reflectivity roughness metallic : Option Rat)
    (properties : List (String × PyVal)) (editable : Bool) :
    mkMaterialProperties type color texture finish reflectivity roughness metallic
        properties editable
      = (if checkClosedUnit "reflectivity" reflectivity ++
            checkClosedUnit "roughness" roughness ++
            checkClosedUnit "metallic" metallic = [] then
          Except.ok ⟨type, color, texture, finish, reflectivity, roughness,
            metallic, properties, editable⟩
        else Except.error (checkClosedUnit "reflectivity" reflectivity ++
            checkClosedUnit "roughness" roughness ++
            checkClosedUnit "metallic" metallic)) := by
  unfold mkMaterialProperties
  rcases hl : checkClosedUnit "reflectivity" reflectivity ++
      checkClosedUnit "roughness" roughness ++
      checkClosedUnit "metallic" metallic with _ | ⟨c, l⟩ <;> simp [hl]

/-- C6: `MaterialProperties` construction succeeds iff every supplied
bounded numeric field (`reflectivity`, `roughness`, `metallic`) lies in
the closed interval `[0, 1]`, and a failure names the offending field; in
particular `reflectivity = 1.0` succeeds while `1.0001` and `-0.01` fail
naming `reflectivity`. -/
theorem material_unit_interval_validation :
    (mkMaterialProperties "wood" none none none (some 1) none none [] true).isOk = true
  ∧ mkMaterialProperties "wood" none none none (some 1.0001) none none [] true
      = Except.error ["reflectivity"]
  ∧ mkMaterialProperties "wood" none none none (some (-0.01)) none none [] true
      = Except.error ["reflectivity"]
  ∧ (∀ ty c tx fi r ro me props ed,
      (mkMaterialProperties ty c tx fi r ro me props ed).isOk = true ↔
        (inClosedUnit r ∧ inClosedUnit ro ∧ inClosedUnit me))
  ∧ (∀ ty c tx fi r ro me props ed errs x,
      mkMaterialProperties ty c tx fi r ro me props ed = Except.error errs →
        ((r = some x → ¬(0 ≤ x ∧ x ≤ 1) → "reflectivity" ∈ errs)
       ∧ (ro = some x → ¬(0 ≤ x ∧ x ≤ 1) → "roughness" ∈ errs)
       ∧ (me = some x → ¬(0 ≤ x ∧ x ≤ 1) → "metallic" ∈ errs))) := by
  refine ⟨by norm_num [mkMaterialProperties, checkClosedUnit, Except.isOk, Except.toBool],
    by norm_num [mkMaterialProperties, checkClosedUnit],
    by norm_num [mkMaterialProperties, checkClosedUnit], ?_, ?_⟩
  · intro ty c tx fi r ro me props ed
    rw [mkMaterialProperties_eq]
    by_cases h : checkClosedUnit "reflectivity" r ++ checkClosedUnit "roughness" ro ++
        checkClosedUnit "metallic" me = []
    · rw [if_pos h]
      simp only [List.append_eq_nil] at h
      exact ⟨fun _ => ⟨(checkClosedUnit_eq_nil_iff _ _).mp h.1.1,
          (checkClosedUnit_eq_nil_iff _ _).mp h.1.2,
          (checkClosedUnit_eq_nil_iff _ _).mp h.2⟩,
        fun _ => by simp [Except.isOk, Except.toBool]⟩
    · rw [if_neg h]
      constructor
      · intro hfalse
        simp [Except.isOk, Except.toBool] at hfalse
      · intro hin
        have h1 : checkClosedUnit "reflectivity" r = [] :=
          (checkClosedUnit_eq_nil_iff _ _).mpr hin.1
        have h2 : checkClosedUnit "roughness" ro = [] :=
          (checkClosedUnit_eq_nil_iff _ _).mpr hin.2.1
        have h3 : checkClosedUnit "metallic" me = [] :=
          (checkClosedUnit_eq_nil_iff _ _).mpr hin.2.2
        exact absurd (by simp [h1, h2, h3]) h
  · intro ty c tx fi r ro me props ed errs x hmk
    rw [mkMaterialProperties_eq] at hmk
    by_cases h : checkClosedUnit "reflectivity" r ++ checkClosedUnit "roughness" ro ++
        checkClosedUnit "metallic" me = []
    · rw [if_pos h] at hmk
      simp at hmk
    · rw [if_neg h] at hmk
      obtain rfl : checkClosedUnit "reflectivity" r ++ checkClosedUnit "roughness" ro ++
          checkClosedUnit "metallic" me = errs := by
        simpa using hmk
      refine ⟨?_, ?_, ?_⟩
      · rintro rfl hx
        have hone : checkClosedUnit "reflectivity" (some x) = ["reflectivity"] := by
          simp [checkClosedUnit, hx]
        simp [hone]
      · rintro rfl hx
        have hone : checkClosedUnit "roughness" (some x) = ["roughness"] := by
          simp [checkClosedUnit, hx]
        simp [hone]
      · rintro rfl hx
        have hone : checkClosedUnit "metallic" (some x) = ["metallic"] := by
          simp [checkClosedUnit, hx]
        simp [hone]

/-- Witness for `material_unit_interval_validation`: the in-range boundary
value is accepted, and an out-of-range reflectivity is reported by name. -/
theorem material_unit_interval_validation_witness :
    (mkMaterialProperties "wood" none none none (some 1) none none [] true).isOk = true
  ∧ "reflectivity" ∈ (["reflectivity"] : List String) :=
  ⟨material_unit_interval_validation.1,
   (material_unit_interval_validation.2.2.2.2 "wood" none none none (some 2) none none
      [] true ["reflectivity"] 2
      (by norm_num [mkMaterialProperties, checkClosedUnit])).1 rfl (by norm_num)⟩


/-- C7: `generate_id` is the pure function appending the lowercased
object type, an underscore, and the decimal rendering of the index;
lowercasing applies regardless of input case, and in particular
`generate_id "Sofa" 1 = "sofa_1"`. -/
theorem generate_id_spec :
    generate_id "Sofa" 1 = "sofa_1"
  ∧ generate_id "SOFA" 7 = "sofa_7"
  ∧ generate_id "sofa" 2 = "sofa_2"
  ∧ ∀ t i, generate_id t i = strLower t ++ "_" ++ Int.repr i :=
  ⟨rfl, rfl, rfl, fun _ _ => rfl⟩

/-- The example wood material of the documented `SpecSchema` payload. -/
def woodFloorMaterial : MaterialProperties :=
  { type := "wood", color := some "#8B4513" }

/-- A valid floor object with `object_id` "floor_1". -/
def dupFloorA : DesignObject :=
  { object_id := "floor_1", object_type := "floor", material := woodFloorMaterial,
    dimensions := { length := 10, width := 10, height := 1/10 } }

/-- A second, different valid object that reuses `object_id` "floor_1". -/
def dupFloorB : DesignObject :=
  { object_id := "floor_1", object_type := "floor", material := woodFloorMaterial,
    position := { x := 2 },
    dimensions := { length := 5, width := 4, height := 1/10 } }

/-- C9: `SpecSchema` construction does not enforce `object_id`
uniqueness: a list containing two distinct otherwise-valid objects that
both carry `object_id` "floor_1" is accepted. -/
theorem spec_schema_accepts_duplicate_object_ids :
    mkSpecSchema "spec_12345" [dupFloorA, dupFloorB] [] 0
      = Except.ok ⟨"spec_12345", [dupFloorA, dupFloorB], [], 0, 0⟩
  ∧ dupFloorA.object_id = "floor_1"
  ∧ dupFloorB.object_id = "floor_1"
  ∧ dupFloorA ≠ dupFloorB
  ∧ mkMaterialProperties "wood" (some "#8B4513") none none none none none [] true
      = Except.ok woodFloorMaterial :=
  ⟨rfl, rfl, rfl, by decide, rfl⟩


/-! ### Decimal-rendering facts, towards the `generate_id` collision
analysis -/

/-- The numeric value a decimal digit character denotes. -/
def digitVal (c : Char) : Nat := c.toNat - '0'.toNat

/-- Read a big-endian digit string back as a number. -/
def decodeDigits (l : List Char) : Nat :=
  l.foldl (fun a c => 10 * a + digitVal c) 0

lemma decodeDigits_snoc (l : List Char) (c : Char) :
    decodeDigits (l ++ [c]) = 10 * decodeDigits l + digitVal c := by
  simp [decodeDigits, List.foldl_append]

lemma digitVal_digitChar {m : Nat} (h : m < 10) :
    digitVal (Nat.digitChar m) = m := by
  have hall : ∀ m, m < 10 → digitVal (Nat.digitChar m) = m := by decide
  exact hall m h

lemma isDigit_digitChar {m : Nat} (h : m < 10) :
    (Nat.digitChar m).isDigit = true := by
  have hall : ∀ m, m < 10 → (Nat.digitChar m).isDigit = true := by decide
  exact hall m h

lemma toDigitsCore_acc (fuel n : Nat) (acc : List Char) :
    Nat.toDigitsCore 10 fuel n acc = Nat.toDigitsCore 10 fuel n [] ++ acc := by
  induction fuel generalizing n acc with
  | zero => simp [Nat.toDigitsCore]
  | succ f ih =>
    rw [Nat.toDigitsCore]
    rw [Nat.toDigitsCore]
    by_cases h : n / 10 = 0
    · simp [h]
    · simp only [h, if_neg, if_false]
      rw [ih (n / 10) [Nat.digitChar (n % 10)],
          ih (n / 10) (Nat.digitChar (n % 10) :: acc)]
      simp

lemma decodeDigits_toDigitsCore :
    ∀ fuel n, n ≤ fuel → decodeDigits (Nat.toDigitsCore 10 fuel n []) = n := by
  intro fuel
  induction fuel with
  | zero =>
    intro n hn
    obtain rfl : n = 0 := Nat.le_zero.mp hn
    simp [Nat.toDigitsCore, decodeDigits]
  | succ f ih =>
    intro n hn
    rw [Nat.toDigitsCore]
    by_cases h : n / 10 = 0
    · rw [if_pos h]
      have hlt : n < 10 := (Nat.div_eq_zero_iff (by norm_num)).mp h
      have : decodeDigits [Nat.digitChar (n % 10)]
          = digitVal (Nat.digitChar (n % 10)) := by
        simp [decodeDigits]
      rw [this, digitVal_digitChar (Nat.mod_lt _ (by norm_num))]
      exact Nat.mod_eq_of_lt hlt
    · rw [if_neg h, toDigitsCore_acc, decodeDigits_snoc]
      have hpos : 0 < n := Nat.pos_of_ne_zero (by
        intro h0; exact h (by simp [h0]))
      have hdiv : n / 10 ≤ f := by
        have := Nat.div_lt_self hpos (by norm_num : 1 < 10)
        omega
      rw [ih (n / 10) hdiv, digitVal_digitChar (Nat.mod_lt _ (by norm_num))]
      exact Nat.div_add_mod n 10

/-- The decimal rendering of a natural number is injective. -/
lemma natRepr_inj {m n : Nat} (h : Nat.repr m = Nat.repr n) : m = n := by
  have hd : Nat.toDigitsCore 10 (m + 1) m [] = Nat.toDigitsCore 10 (n + 1) n [] :=
    congrArg String.data h
  calc m = decodeDigits (Nat.toDigitsCore 10 (m + 1) m []) :=
        (decodeDigits_toDigitsCore _ _ (Nat.le_succ m)).symm
    _ = decodeDigits (Nat.toDigitsCore 10 (n + 1) n []) := by rw [hd]
    _ = n := decodeDigits_toDigitsCore _ _ (Nat.le_succ n)

lemma toDigitsCore_all_digits :
    ∀ fuel n (acc : List Char), (∀ c ∈ acc, c.isDigit = true) →
      ∀ c ∈ Nat.toDigitsCore 10 fuel n acc, c.isDigit = true := by
  intro fuel
  induction fuel with
  | zero => intro n acc hacc; simpa [Nat.toDigitsCore] using hacc
  | succ f ih =>
    intro n acc hacc
    rw [Nat.toDigitsCore]
    by_cases h : n / 10 = 0
    · rw [if_pos h]
      intro c hc
      rcases List.mem_cons.mp hc with rfl | hc
      · exact isDigit_digitChar (Nat.mod_lt _ (by norm_num))
      · exact hacc c hc
    · rw [if_neg h]
      refine ih (n / 10) _ ?_
      intro c hc
      rcases List.mem_cons.mp hc with rfl | hc
      · exact isDigit_digitChar (Nat.mod_lt _ (by norm_num))
      · exact hacc c hc

/-- Every character of the decimal rendering of a natural number is a
digit. -/
lemma natRepr_all_digits (n : Nat) : ∀ c ∈ (Nat.repr n).data, c.isDigit = true :=
  fun c hc => toDigitsCore_all_digits (n + 1) n [] (by simp) c hc

lemma string_data_append (a b : String) : (a ++ b).data = a.data ++ b.data := by
  cases a; cases b; rfl

lemma intRepr_negSucc_data (m : Nat) :
    (Int.repr (Int.negSucc m)).data = '-' :: (Nat.repr (m + 1)).data := by
  show (("-" : String) ++ Nat.repr (m + 1).succ.pred).data = _
  rw [string_data_append]
  rfl

/-- The decimal rendering of an integer never contains an underscore. -/
lemma intRepr_no_underscore (i : Int) : '_' ∉ (Int.repr i).data := by
  cases i with
  | ofNat m =>
    intro hmem
    exact absurd (natRepr_all_digits m _ hmem) (by decide)
  | negSucc m =>
    intro hmem
    rw [intRepr_negSucc_data] at hmem
    rcases List.mem_cons.mp hmem with h | h
    · exact absurd h (by decide)
    · exact absurd (natRepr_all_digits _ _ h) (by decide)

/-- The decimal rendering of an integer is injective. -/
lemma intRepr_inj {i j : Int} (h : Int.repr i = Int.repr j) : i = j := by
  cases i with
  | ofNat m =>
    cases j with
    | ofNat n => exact congrArg Int.ofNat (natRepr_inj h)
    | negSucc n =>
      exfalso
      have hd : (Nat.repr m).data = '-' :: (Nat.repr (n + 1)).data := by
        rw [← intRepr_negSucc_data]
        exact congrArg String.data h
      have hmem : '-' ∈ (Nat.repr m).data := by
        rw [hd]; exact List.mem_cons_self _ _
      exact absurd (natRepr_all_digits m _ hmem) (by decide)
  | negSucc m =>
    cases j with
    | ofNat n =>
      exfalso
      have hd : (Nat.repr n).data = '-' :: (Nat.repr (m + 1)).data := by
        rw [← intRepr_negSucc_data]
        exact congrArg String.data h.symm
      have hmem : '-' ∈ (Nat.repr n).data := by
        rw [hd]; exact List.mem_cons_self _ _
      exact absurd (natRepr_all_digits n _ hmem) (by decide)
    | negSucc n =>
      have hd : '-' :: (Nat.repr (m + 1)).data = '-' :: (Nat.repr (n + 1)).data := by
        rw [← intRepr_negSucc_data, ← intRepr_negSucc_data]
        exact congrArg String.data h
      have htail : (Nat.repr (m + 1)).data = (Nat.repr (n + 1)).data :=
        ((List.cons.injEq _ _ _ _).mp hd).2
      have hmn : m = n := by
        have := natRepr_inj (String.ext htail)
        omega
      exact congrArg Int.negSucc hmn


/-- Splitting at the last underscore: when neither suffix contains an
underscore, the decomposition `prefix ++ '_' :: suffix` is unique. -/
lemma append_underscore_inj :
    ∀ (a b s t : List Char), '_' ∉ s → '_' ∉ t →
      a ++ '_' :: s = b ++ '_' :: t → a = b ∧ s = t := by
  intro a
  induction a with
  | nil =>
    intro b s t hs ht h
    cases b with
    | nil => simpa using h
    | cons d b' =>
      exfalso
      rw [List.nil_append, List.cons_append] at h
      obtain ⟨rfl, hrest⟩ := (List.cons.injEq _ _ _ _).mp h
      exact hs (hrest ▸ List.mem_append_right b' (List.mem_cons_self _ _))
  | cons c a' ih =>
    intro b s t hs ht h
    cases b with
    | nil =>
      exfalso
      rw [List.nil_append, List.cons_append] at h
      obtain ⟨rfl, hrest⟩ := (List.cons.injEq _ _ _ _).mp h.symm
      exact ht (hrest ▸ List.mem_append_right a' (List.mem_cons_self _ _))
    | cons d b' =>
      rw [List.cons_append, List.cons_append] at h
      obtain ⟨rfl, hrest⟩ := (List.cons.injEq _ _ _ _).mp h
      obtain ⟨hab, hst⟩ := ih b' s t hs ht hrest
      exact ⟨by rw [hab], hst⟩

/-- The character data of a generated id: the lowercased type, one
underscore, then the rendered index. -/
lemma generate_id_data (t : String) (i : Int) :
    (generate_id t i).data = (strLower t).data ++ '_' :: (Int.repr i).data := by
  show ((strLower t ++ "_") ++ Int.repr i).data = _
  rw [string_data_append, string_data_append]
  simp

/-- C8 counterexample: the distinct pairs `("Sofa", 1)` and `("sofa", 1)`
produce the same id `"sofa_1"`, so `generate_id` is not injective over
input pairs. -/
theorem generate_id_case_collision :
    ("Sofa", (1 : Int)) ≠ ("sofa", (1 : Int))
  ∧ generate_id "Sofa" 1 = generate_id "sofa" 1 :=
  ⟨by decide, rfl⟩

/-- C8 amended: `generate_id` identifies exactly the pairs that agree
after lowercasing the object type — `generate_id t₁ i₁ = generate_id t₂ i₂`
iff `lower(t₁) = lower(t₂)` and `i₁ = i₂`. Hence it is injective over
(lowercased type, index) pairs, but distinct raw pairs whose types differ
only in case collide. -/
theorem generate_id_eq_iff (t1 t2 : String) (i1 i2 : Int) :
    generate_id t1 i1 = generate_id t2 i2 ↔
      (strLower t1 = strLower t2 ∧ i1 = i2) := by
  constructor
  · intro h
    have hd := congrArg String.data h
    rw [generate_id_data, generate_id_data] at hd
    obtain ⟨h1, h2⟩ := append_underscore_inj _ _ _ _
      (intRepr_no_underscore i1) (intRepr_no_underscore i2) hd
    exact ⟨String.ext h1, intRepr_inj (String.ext h2)⟩
  · intro ⟨h1, h2⟩
    simp [generate_id, h1, h2]

end PromptToJson
